import Mathlib

/-!
Verification of the operation-directory data-access layer
(lxd/db/operations.go): a shallow embedding of the `operations` table
accessors over an explicit relational store, together with theorems about
their behaviour.
-/

namespace LxdDB

/-- A row of the `operations` table:
`operations(id PK, uuid UNIQUE, node_id FK, type, project_id FK NULLABLE)`.
The Go field `type` is rendered `typ`. -/
structure OperationRow where
  id : Int
  uuid : String
  node_id : Int
  typ : Int
  project_id : Option Int
deriving DecidableEq, Repr

/-- A row of the `nodes` table, as far as this module reads it. -/
structure NodeRow where
  id : Int
  address : String
deriving DecidableEq, Repr

/-- A row of the `projects` table, as far as this module reads it. -/
structure ProjectRow where
  id : Int
  name : String
deriving DecidableEq, Repr

/-- The relational store visible to the accessors.  Tables are lists of rows
in store order (the order an unordered SELECT scans them in); `nextID` models
the database-assigned surrogate-key counter. -/
structure DB where
  operations : List OperationRow
  nodes : List NodeRow
  projects : List ProjectRow
  nextID : Int
deriving DecidableEq, Repr

/-- `ClusterTx`: the caller-supplied transaction handle, carrying the store
and the local node identity `nodeID`. -/
structure ClusterTx where
  db : DB
  nodeID : Int
deriving DecidableEq, Repr

/-- The Go struct `Operation` returned by the accessors
(`ID`, `UUID`, `NodeAddress`, `Type`); `Type` is rendered `typ`. -/
structure Operation where
  ID : Int
  UUID : String
  NodeAddress : String
  typ : Int
deriving DecidableEq, Repr

/-- The zero value of `Operation`, `null := Operation{}` in the source. -/
def nullOperation : Operation := ⟨0, "", "", 0⟩

/-- Go `error` values the accessors can return. `errNoSuchObject` is the
shared `ErrNoSuchObject` sentinel; `moreThanOne` is
`fmt.Errorf("More than one operation matches")`; `deletedRows n` is
`fmt.Errorf("query deleted %d rows instead of 1", n)`; `storage` is an
error surfaced by the underlying store; `wrap` is `errors.Wrap`. -/
inductive GoErr where
  | errNoSuchObject : GoErr
  | moreThanOne : GoErr
  | deletedRows (n : Int) : GoErr
  | storage (msg : String) : GoErr
  | wrap (ctx : String) (e : GoErr) : GoErr
deriving DecidableEq, Repr

/-- A fault the store may inject into the shared `operations` routine:
`prepareErr` fails `tx.Prepare`, `selectErr` fails `query.SelectObjects`. -/
inductive StoreFault where
  | prepareErr (msg : String) : StoreFault
  | selectErr (msg : String) : StoreFault
deriving DecidableEq, Repr

/-- The WHERE fragments the source passes to the `operations` routine:
`""`, `"id=?"`, `"uuid=?"`, `"node_id=?"` with one bound argument. -/
inductive WhereClause where
  | all : WhereClause
  | idEq (v : Int) : WhereClause
  | uuidEq (v : String) : WhereClause
  | nodeIdEq (v : Int) : WhereClause
deriving DecidableEq, Repr

/-- Evaluation of a WHERE fragment on an `operations` row. -/
def rowMatches (w : WhereClause) (r : OperationRow) : Bool :=
  match w with
  | .all => true
  | .idEq v => r.id == v
  | .uuidEq v => r.uuid == v
  | .nodeIdEq v => r.node_id == v

/-- The inner join `FROM operations JOIN nodes ON nodes.id = node_id`,
projecting `operations.id, uuid, nodes.address, type` as in the shared
routine's SELECT. -/
def joinNodes (db : DB) (rs : List OperationRow) : List Operation :=
  rs.flatMap fun r =>
    (db.nodes.filter fun nd => nd.id == r.node_id).map fun nd =>
      ⟨r.id, r.uuid, nd.address, r.typ⟩

/-- The row order requested by `ORDER BY operations.id`. -/
def opIdLE (a b : Operation) : Prop := a.ID ≤ b.ID

instance : DecidableRel opIdLE := fun a b => inferInstanceAs (Decidable (a.ID ≤ b.ID))

instance : IsTotal Operation opIdLE := ⟨fun a b => Int.le_total a.ID b.ID⟩

instance : IsTrans Operation opIdLE := ⟨fun _ _ _ hab hbc => le_trans hab hbc⟩

/-- The result rows of the shared `operations` routine on a fault-free run:
`SELECT operations.id, uuid, nodes.address, type FROM operations JOIN nodes
ON nodes.id = node_id WHERE <where> ORDER BY operations.id`. -/
def operationsPure (db : DB) (w : WhereClause) : List Operation :=
  List.insertionSort opIdLE (joinNodes db (db.operations.filter (rowMatches w)))

/-- The shared `operations` routine (`ClusterTx.operations` in the source),
returning the Go pair `([]Operation, error)`: a failed `Prepare` propagates
the store error unchanged, a failed `SelectObjects` propagates it wrapped
with "Failed to fetch operations", and a fault-free run returns the query
rows with a nil error. -/
def operations (db : DB) (w : WhereClause) (fault : Option StoreFault) :
    List Operation × Option GoErr :=
  match fault with
  | some (.prepareErr msg) => ([], some (.storage msg))
  | some (.selectErr msg) =>
      ([], some (.wrap "Failed to fetch operations" (.storage msg)))
  | none => (operationsPure db w, none)

/-- `ClusterTx.GetLocalOperations`: `c.operations("node_id=?", c.nodeID)`. -/
def GetLocalOperations (tx : ClusterTx) (fault : Option StoreFault) :
    List Operation × Option GoErr :=
  operations tx.db (.nodeIdEq tx.nodeID) fault

/-- `ClusterTx.GetLocalOperationsUUIDs`:
`SELECT uuid FROM operations WHERE node_id=?` (no join, no ORDER BY),
run through `query.SelectStrings`. -/
def GetLocalOperationsUUIDs (tx : ClusterTx) : List String :=
  (tx.db.operations.filter fun r => r.node_id == tx.nodeID).map fun r => r.uuid

/-- The WHERE condition of `GetNodesWithRunningOperations` and (together with
the type test) of `GetOperationsOfType`:
`projects.name = ? OR operations.project_id IS NULL` evaluated after
`LEFT JOIN projects ON projects.id = operations.project_id`.  A NULL
`projects.name` (no matching project row) never satisfies the equality. -/
def projectCond (db : DB) (projectName : String) (r : OperationRow) : Bool :=
  r.project_id.isNone ||
    db.projects.any fun p => some p.id == r.project_id && p.name == projectName

/-- `ClusterTx.GetNodesWithRunningOperations`:
`SELECT DISTINCT nodes.address FROM operations LEFT OUTER JOIN projects ON
projects.id = operations.project_id JOIN nodes ON nodes.id =
operations.node_id WHERE projects.name = ? OR operations.project_id IS NULL`. -/
def GetNodesWithRunningOperations (tx : ClusterTx) (project : String) :
    List String :=
  (((tx.db.operations.filter (projectCond tx.db project)).flatMap fun r =>
      (tx.db.nodes.filter fun nd => nd.id == r.node_id).map fun nd =>
        nd.address)).dedup

/-- The row set scanned by `GetOperationsOfType`'s inline query:
`SELECT operations.id, operations.uuid, operations.type, nodes.address FROM
operations LEFT JOIN projects ON projects.id = operations.project_id JOIN
nodes ON nodes.id = operations.node_id WHERE (projects.name = ? OR
operations.project_id IS NULL) AND operations.type = ?` — note: no ORDER BY. -/
def getOperationsOfTypeRows (db : DB) (projectName : String) (opType : Int) :
    List Operation :=
  (db.operations.filter fun r =>
      projectCond db projectName r && r.typ == opType).flatMap fun r =>
    (db.nodes.filter fun nd => nd.id == r.node_id).map fun nd =>
      ⟨r.id, r.uuid, nd.address, r.typ⟩

/-- Faults the store may inject into `GetOperationsOfType`'s hand-rolled row
loop: a failed `tx.Query`, a failed `rows.Scan` (only reachable when the
query produced at least one row), and a non-nil `rows.Err()` after the
iteration finished. -/
structure QueryFault where
  queryErr : Option String
  scanErr : Option String
  rowsErr : Option String
deriving DecidableEq, Repr

/-- A fault-free run. -/
def QueryFault.clean : QueryFault := ⟨none, none, none⟩

/-- `ClusterTx.GetOperationsOfType`, control flow embedded line by line:
`tx.Query` failure returns its error; a `rows.Scan` failure inside the loop
returns it; after the loop the source tests `rows.Err() != nil` but then
executes `return nil, err` where `err` is the (nil) `tx.Query` error — so a
row-iteration error yields a nil slice AND a nil error. -/
def GetOperationsOfTypeRun (tx : ClusterTx) (projectName : String)
    (opType : Int) (f : QueryFault) : List Operation × Option GoErr :=
  match f.queryErr with
  | some m => ([], some (.storage m))
  | none =>
    let ops := getOperationsOfTypeRows tx.db projectName opType
    match f.scanErr with
    | some m => if ops.isEmpty then finishRows ops f else ([], some (.storage m))
    | none => finishRows ops f
where
  /-- The `rows.Err()` check at the end of the loop: on a non-nil
  `rows.Err()` the source returns `nil, err` with `err` still nil. -/
  finishRows (ops : List Operation) (f : QueryFault) :
      List Operation × Option GoErr :=
    if f.rowsErr.isSome then ([], none) else (ops, none)

/-- `ClusterTx.GetOperationWithID`: switch on the length of
`c.operations("id=?", opID)`. -/
def GetOperationWithID (tx : ClusterTx) (opID : Int)
    (fault : Option StoreFault) : Operation × Option GoErr :=
  match operations tx.db (.idEq opID) fault with
  | (_, some e) => (nullOperation, some e)
  | (ops, none) =>
    match ops with
    | [] => (nullOperation, some .errNoSuchObject)
    | [op] => (op, none)
    | _ => (nullOperation, some .moreThanOne)

/-- `ClusterTx.GetOperationByUUID`: switch on the length of
`c.operations("uuid=?", uuid)`. -/
def GetOperationByUUID (tx : ClusterTx) (uuid : String)
    (fault : Option StoreFault) : Operation × Option GoErr :=
  match operations tx.db (.uuidEq uuid) fault with
  | (_, some e) => (nullOperation, some e)
  | (ops, none) =>
    match ops with
    | [] => (nullOperation, some .errNoSuchObject)
    | [op] => (op, none)
    | _ => (nullOperation, some .moreThanOne)

/-- Modelled from the spec: `ClusterTx.GetProjectID` is an external
collaborator not part of this module ("a project-name-to-ID resolver (fails
distinguishably when the name is unknown)", "fails with NotFound if the
project name does not resolve").  It returns the ID of the first project row
with the given name, or the NotFound error. -/
def GetProjectID (db : DB) (name : String) : Except GoErr Int :=
  match db.projects.find? (fun p => p.name == name) with
  | some p => .ok p.id
  | none => .error .errNoSuchObject

/-- Modelled from the spec: `query.UpsertObject` on the `operations` table is
external to this module ("Performs an upsert on
`\x7buuid, node_id=local, type, project_id\x7d` — if a row with this identity
already exists it is replaced, otherwise inserted", keyed on the
UUID-equivalent identity, "Returns the surrogate key of the affected row").
Any existing row with the same uuid is replaced; the affected row gets the
next surrogate key. -/
def upsertOperationsRow (db : DB) (uuid : String) (nodeID : Int) (typ : Int)
    (projID : Option Int) : DB × Int :=
  let newID := db.nextID
  let kept := db.operations.filter fun r => r.uuid ≠ uuid
  (⟨kept ++ [⟨newID, uuid, nodeID, typ, projID⟩], db.nodes, db.projects,
    newID + 1⟩, newID)

/-- The `project_id` column value `CreateOperation` stores for a given
`project` argument, when resolution succeeds. -/
def resolvedProjectID (db : DB) (project : String) : Option Int :=
  if project = "" then none
  else match GetProjectID db project with
    | .ok pid => some pid
    | .error _ => none

/-- `ClusterTx.CreateOperation`: an empty `project` stores NULL; a non-empty
`project` is resolved via `GetProjectID`, whose failure is returned wrapped
with "Fetch project ID" together with the Go value `-1` and an unchanged
store; otherwise the row `(uuid, c.nodeID, typ, projectID)` is upserted and
the surrogate key of the affected row returned. -/
def CreateOperation (tx : ClusterTx) (project uuid : String) (typ : Int) :
    DB × Int × Option GoErr :=
  if project ≠ "" then
    match GetProjectID tx.db project with
    | .error e => (tx.db, -1, some (.wrap "Fetch project ID" e))
    | .ok pid =>
      let res := upsertOperationsRow tx.db uuid tx.nodeID typ (some pid)
      (res.1, res.2, none)
  else
    let res := upsertOperationsRow tx.db uuid tx.nodeID typ none
    (res.1, res.2, none)

/-- `ClusterTx.RemoveOperation`: `DELETE FROM operations WHERE uuid=?`, then
`RowsAffected`; the delete always happens inside the transaction, and the Go
error is nil exactly when one row was affected, else
`fmt.Errorf("query deleted %d rows instead of 1", n)`. -/
def RemoveOperation (tx : ClusterTx) (uuid : String) : DB × Option GoErr :=
  let n : Int := (tx.db.operations.filter fun r => r.uuid == uuid).length
  let db' : DB := ⟨tx.db.operations.filter fun r => r.uuid ≠ uuid,
    tx.db.nodes, tx.db.projects, tx.db.nextID⟩
  if n = 1 then (db', none) else (db', some (.deletedRows n))

/-- `ClusterTx.removeNodeOperations`:
`DELETE FROM operations WHERE node_id=?`, ignoring the affected-row count;
a successful delete returns nil whatever it matched. -/
def removeNodeOperations (tx : ClusterTx) (nodeID : Int) : DB × Option GoErr :=
  (⟨tx.db.operations.filter fun r => r.node_id ≠ nodeID,
    tx.db.nodes, tx.db.projects, tx.db.nextID⟩, none)

/-- At most one `operations` row per uuid. -/
def uuidUnique (db : DB) : Prop :=
  db.operations.Pairwise fun a b => a.uuid ≠ b.uuid

instance (db : DB) : Decidable (uuidUnique db) :=
  inferInstanceAs (Decidable (List.Pairwise _ _))

/-- One mutation of the store through this module's write surface, from an
arbitrary local node, plus arbitrary external changes to the `nodes` and
`projects` reference tables (owned elsewhere). -/
inductive Step : DB → DB → Prop where
  | create (db : DB) (n : Int) (project uuid : String) (typ : Int) :
      Step db (CreateOperation ⟨db, n⟩ project uuid typ).1
  | remove (db : DB) (n : Int) (uuid : String) :
      Step db (RemoveOperation ⟨db, n⟩ uuid).1
  | removeNode (db : DB) (n nodeID : Int) :
      Step db (removeNodeOperations ⟨db, n⟩ nodeID).1
  | refTables (db : DB) (nodes : List NodeRow) (projects : List ProjectRow) :
      Step db ⟨db.operations, nodes, projects, db.nextID⟩

/-- States reachable from an empty `operations` table through this module's
write surface. -/
inductive Reachable : DB → Prop where
  | init (nodes : List NodeRow) (projects : List ProjectRow) (k : Int) :
      Reachable ⟨[], nodes, projects, k⟩
  | step (db db' : DB) : Reachable db → Step db db' → Reachable db'

/-- The reference-table well-formedness guaranteed by the schema's foreign
keys: node ids are pairwise distinct (primary key) and every operation row's
`node_id` references an existing node. -/
def nodesOK (db : DB) : Prop :=
  (db.nodes.Pairwise fun a b => a.id ≠ b.id) ∧
  ∀ r ∈ db.operations, ∃ nd ∈ db.nodes, nd.id = r.node_id

instance (db : DB) : Decidable (nodesOK db) := by
  unfold nodesOK; exact inferInstance

/-- Concrete store used below: one operation row whose `node_id` has no
`nodes` row. -/
def exDB1 : DB := ⟨[⟨7, "u1", 5, 3, none⟩], [], [], 10⟩

/-- Concrete store used below: two operation rows out of surrogate-key order
on a single node. -/
def exDB2 : DB := ⟨[⟨9, "b", 1, 3, none⟩, ⟨4, "a", 1, 3, none⟩], [⟨1, "10.0.0.1"⟩], [], 20⟩

/-- Concrete well-formed store used below: one operation with id 1 and uuid
"abc-1" on node 2. -/
def witDB : DB := ⟨[⟨1, "abc-1", 2, 7, none⟩], [⟨2, "10.0.0.1"⟩], [], 5⟩

example : GetLocalOperationsUUIDs ⟨exDB1, 5⟩ = ["u1"] := by decide

example : operationsPure exDB1 (.nodeIdEq 5) = [] := by decide

example : operationsPure exDB2 (.nodeIdEq 1) =
    [⟨4, "a", "10.0.0.1", 3⟩, ⟨9, "b", "10.0.0.1", 3⟩] := by decide

example : getOperationsOfTypeRows exDB2 "p" 3 =
    [⟨9, "b", "10.0.0.1", 3⟩, ⟨4, "a", "10.0.0.1", 3⟩] := by decide

example : GetNodesWithRunningOperations
    ⟨⟨[⟨1, "u", 10, 0, some 5⟩, ⟨2, "v", 11, 0, none⟩, ⟨3, "w", 12, 0, some 6⟩],
      [⟨10, "a10"⟩, ⟨11, "a11"⟩, ⟨12, "a12"⟩], [⟨5, "px"⟩, ⟨6, "py"⟩], 50⟩, 10⟩
    "px" = ["a10", "a11"] := by decide

/-- C1: the source's `GetOperationsOfType` tests `rows.Err() != nil` after
the row loop but then returns the outer (nil) `err`: a run whose iteration
ends with a store error yields a nil slice and a NIL error, silently
swallowing the failure, although the query itself produced rows.  The claim
(and the spec's propagation policy) requires a non-nil error here. -/
theorem C1_rows_err_swallowed :
    GetOperationsOfTypeRun ⟨exDB2, 1⟩ "p" 3 ⟨none, none, some "disk I/O error"⟩
      = ([], none) ∧
    getOperationsOfTypeRows exDB2 "p" 3 ≠ [] := by decide

/-- C2 counterexample: at `exDB1` the uuid accessor surfaces a uuid the
shared routine (which inner-joins `nodes`) would drop, and at `exDB2` the
type accessor returns rows not ordered by `operations.id` — so neither
funnels through the shared ordered routine as the claim states. -/
theorem C2_counterexample :
    GetLocalOperationsUUIDs ⟨exDB1, 5⟩ ≠
      (operationsPure exDB1 (.nodeIdEq 5)).map Operation.UUID ∧
    ¬ (GetOperationsOfTypeRun ⟨exDB2, 1⟩ "p" 3 QueryFault.clean).1.Pairwise opIdLE := by
  decide

/-- C2 amended: `GetLocalOperations` does funnel through the shared
`operations` routine with the `node_id=?` filter, and that routine joins
`nodes` to resolve addresses and returns its rows ordered by
`operations.id`; the other three list accessors issue their own queries. -/
theorem C2_amended (db : DB) (n : Int) (f : Option StoreFault) (w : WhereClause) :
    GetLocalOperations ⟨db, n⟩ f = operations db (.nodeIdEq n) f ∧
    List.Sorted opIdLE (operationsPure db w) ∧
    ∀ o ∈ operationsPure db w, ∃ r ∈ db.operations, rowMatches w r = true ∧
      ∃ nd ∈ db.nodes, nd.id = r.node_id ∧
        o = ⟨r.id, r.uuid, nd.address, r.typ⟩ := by
  refine ⟨rfl, List.sorted_insertionSort _ _, ?_⟩
  intro o ho
  rw [operationsPure, (List.perm_insertionSort _ _).mem_iff, joinNodes,
    List.mem_flatMap] at ho
  obtain ⟨r, hr, ho⟩ := ho
  rw [List.mem_map] at ho
  obtain ⟨nd, hnd, rfl⟩ := ho
  rw [List.mem_filter] at hr hnd
  exact ⟨r, hr.1, hr.2, nd, hnd.1, by simpa using hnd.2, rfl⟩

/-- C2 amended witness: a concrete member of the shared routine's output at
`exDB2` decomposes into a matching operation row joined with its node. -/
theorem C2_amended_witness :
    ∃ r ∈ exDB2.operations, rowMatches .all r = true ∧
      ∃ nd ∈ exDB2.nodes, nd.id = r.node_id ∧
        (⟨4, "a", "10.0.0.1", 3⟩ : Operation)
          = ⟨r.id, r.uuid, nd.address, r.typ⟩ := by
  have h := C2_amended exDB2 1 none .all
  exact h.2.2 ⟨4, "a", "10.0.0.1", 3⟩ (by decide)

/-- C6: `RemoveOperation` returns a nil error exactly when the delete
affected one row (so zero affected rows and more than one affected row both
return a non-nil error), and afterwards no row with that uuid remains. -/
theorem C6_RemoveOperation (db : DB) (n : Int) (uuid : String) :
    ((RemoveOperation ⟨db, n⟩ uuid).2 = none ↔
      (db.operations.filter fun r => r.uuid == uuid).length = 1) ∧
    (RemoveOperation ⟨db, n⟩ uuid).1.operations.filter
      (fun r => r.uuid == uuid) = [] := by
  constructor
  · simp only [RemoveOperation]
    split_ifs with h
    · exact iff_of_true rfl (by exact_mod_cast h)
    · exact iff_of_false (by simp) fun hl => h (by exact_mod_cast hl)
  · have hops : (RemoveOperation ⟨db, n⟩ uuid).1.operations =
        db.operations.filter fun r => r.uuid ≠ uuid := by
      simp only [RemoveOperation]
      split_ifs <;> rfl
    rw [hops, List.filter_eq_nil_iff]
    intro a ha
    rw [List.mem_filter] at ha
    simpa using (by simpa using ha.2 : a.uuid ≠ uuid)

/-- C9: `removeNodeOperations` returns a nil error unconditionally, removes
exactly the rows owned by the node (keeping every other row), and a
subsequent `GetLocalOperations` under that node's context returns an empty
list with a nil error. -/
theorem C9_removeNodeOperations (db : DB) (n nodeID : Int) :
    (removeNodeOperations ⟨db, n⟩ nodeID).2 = none ∧
    (∀ r ∈ (removeNodeOperations ⟨db, n⟩ nodeID).1.operations,
      r.node_id ≠ nodeID) ∧
    (∀ r ∈ db.operations, r.node_id ≠ nodeID →
      r ∈ (removeNodeOperations ⟨db, n⟩ nodeID).1.operations) ∧
    GetLocalOperations ⟨(removeNodeOperations ⟨db, n⟩ nodeID).1, nodeID⟩ none
      = ([], none) := by
  refine ⟨rfl, ?_, ?_, ?_⟩
  · intro r hr
    simp only [removeNodeOperations, List.mem_filter] at hr
    simpa using hr.2
  · intro r hr hne
    simp only [removeNodeOperations, List.mem_filter]
    exact ⟨hr, by simpa using hne⟩
  · have hfil : (removeNodeOperations ⟨db, n⟩ nodeID).1.operations.filter
        (rowMatches (.nodeIdEq nodeID)) = [] := by
      rw [List.filter_eq_nil_iff]
      intro a ha
      simp only [removeNodeOperations, List.mem_filter] at ha
      simpa [rowMatches] using ha.2
    simp [GetLocalOperations, operations, operationsPure, hfil, joinNodes]

/-- C9 witness: bulk-deleting operations of the absent node 99 at `exDB1`
returns a nil error and keeps the row owned by node 5. -/
theorem C9_witness :
    (removeNodeOperations ⟨exDB1, 5⟩ 99).2 = none ∧
    (⟨7, "u1", 5, 3, none⟩ : OperationRow)
      ∈ (removeNodeOperations ⟨exDB1, 5⟩ 99).1.operations := by
  have h := C9_removeNodeOperations exDB1 5 99
  exact ⟨h.1, h.2.2.1 ⟨7, "u1", 5, 3, none⟩ (by decide) (by decide)⟩

/-- C10: whenever `GetOperationWithID` or `GetOperationByUUID` returns a
non-nil error — a store failure, zero matches, or more than one match — the
`Operation` value returned alongside it is exactly the zero value. -/
theorem C10_null_on_error (db : DB) (n opID : Int) (uuid : String)
    (f g : Option StoreFault) :
    ((GetOperationWithID ⟨db, n⟩ opID f).2 ≠ none →
      (GetOperationWithID ⟨db, n⟩ opID f).1 = nullOperation) ∧
    ((GetOperationByUUID ⟨db, n⟩ uuid g).2 ≠ none →
      (GetOperationByUUID ⟨db, n⟩ uuid g).1 = nullOperation) := by
  constructor
  · intro h
    rcases f with _ | sf
    · rcases hl : operationsPure db (.idEq opID) with _ | ⟨a, _ | ⟨b, t⟩⟩ <;>
        simp [GetOperationWithID, operations, hl] at h ⊢
    · cases sf <;> simp [GetOperationWithID, operations]
  · intro h
    rcases g with _ | sf
    · rcases hl : operationsPure db (.uuidEq uuid) with _ | ⟨a, _ | ⟨b, t⟩⟩ <;>
        simp [GetOperationByUUID, operations, hl] at h ⊢
    · cases sf <;> simp [GetOperationByUUID, operations]

/-- C10 witness: both getters on an empty store fail (NotFound) and return
the zero-value `Operation`. -/
theorem C10_witness :
    (GetOperationWithID ⟨⟨[], [], [], 0⟩, 1⟩ 5 none).1 = nullOperation ∧
    (GetOperationByUUID ⟨⟨[], [], [], 0⟩, 1⟩ "u" none).1 = nullOperation := by
  have h := C10_null_on_error ⟨[], [], [], 0⟩ 1 5 "u" none none
  exact ⟨h.1 (by decide), h.2 (by decide)⟩

/-- C7: `GetNodesWithRunningOperations` returns a duplicate-free list of
node addresses containing an address exactly when some node with that
address has an operation scoped to the named project or a project-less
(global) operation; nodes whose operations all belong to other projects
contribute nothing. -/
theorem C7_GetNodesWithRunningOperations (db : DB) (n : Int)
    (projectName : String) :
    (GetNodesWithRunningOperations ⟨db, n⟩ projectName).Nodup ∧
    ∀ addr, addr ∈ GetNodesWithRunningOperations ⟨db, n⟩ projectName ↔
      ∃ nd ∈ db.nodes, nd.address = addr ∧
        ∃ r ∈ db.operations, r.node_id = nd.id ∧
          (r.project_id = none ∨
            ∃ p ∈ db.projects, some p.id = r.project_id ∧
              p.name = projectName) := by
  refine ⟨List.nodup_dedup _, ?_⟩
  intro addr
  simp only [GetNodesWithRunningOperations, List.mem_dedup, List.mem_flatMap,
    List.mem_filter, List.mem_map, projectCond, Bool.or_eq_true,
    Option.isNone_iff_eq_none, List.any_eq_true, Bool.and_eq_true, beq_iff_eq]
  constructor
  · rintro ⟨r, ⟨hr, hc⟩, nd, ⟨hnd, hid⟩, rfl⟩
    exact ⟨nd, hnd, rfl, r, hr, hid.symm, by tauto⟩
  · rintro ⟨nd, hnd, rfl, r, hr, hid, hc⟩
    exact ⟨r, ⟨hr, by tauto⟩, nd, ⟨hnd, hid.symm⟩, rfl⟩

/-- C8: `GetLocalOperations` succeeds without a fault, its result contains
exactly the operations owned by the transaction's local node (resolved
through the nodes join), and when the local node owns no operation it
returns an empty list with a nil error. -/
theorem C8_GetLocalOperations (db : DB) (n : Int) :
    (GetLocalOperations ⟨db, n⟩ none).2 = none ∧
    (∀ o, o ∈ (GetLocalOperations ⟨db, n⟩ none).1 ↔
      ∃ r ∈ db.operations, r.node_id = n ∧
        ∃ nd ∈ db.nodes, nd.id = r.node_id ∧
          o = ⟨r.id, r.uuid, nd.address, r.typ⟩) ∧
    ((∀ r ∈ db.operations, r.node_id ≠ n) →
      GetLocalOperations ⟨db, n⟩ none = ([], none)) := by
  refine ⟨rfl, ?_, ?_⟩
  · intro o
    show o ∈ operationsPure db (.nodeIdEq n) ↔ _
    rw [operationsPure, (List.perm_insertionSort _ _).mem_iff, joinNodes,
      List.mem_flatMap]
    constructor
    · rintro ⟨r, hr, ho⟩
      rw [List.mem_map] at ho
      obtain ⟨nd, hnd, rfl⟩ := ho
      rw [List.mem_filter] at hr hnd
      exact ⟨r, hr.1, by simpa [rowMatches] using hr.2, nd, hnd.1,
        by simpa using hnd.2, rfl⟩
    · rintro ⟨r, hr, hrn, nd, hnd, hid, rfl⟩
      refine ⟨r, ?_, ?_⟩
      · rw [List.mem_filter]
        exact ⟨hr, by simpa [rowMatches] using hrn⟩
      · rw [List.mem_map]
        refine ⟨nd, ?_, rfl⟩
        rw [List.mem_filter]
        exact ⟨hnd, by simpa using hid⟩
  · intro hno
    have hfil : db.operations.filter (rowMatches (.nodeIdEq n)) = [] := by
      rw [List.filter_eq_nil_iff]
      intro a ha
      simpa [rowMatches] using hno a ha
    simp [GetLocalOperations, operations, operationsPure, hfil, joinNodes]

/-- C8 witness: a store whose only operation belongs to node 2, queried from
node 9's context, yields an empty list and a nil error. -/
theorem C8_witness :
    GetLocalOperations ⟨⟨[⟨1, "x", 2, 0, none⟩], [], [], 3⟩, 9⟩ none
      = ([], none) :=
  (C8_GetLocalOperations ⟨[⟨1, "x", 2, 0, none⟩], [], [], 3⟩ 9).2.2 (by decide)

/-- In a list of nodes with pairwise-distinct ids, filtering on a member's
id yields exactly that member. -/
lemma filter_nodes_single (l : List NodeRow)
    (hl : l.Pairwise fun a b => a.id ≠ b.id) (nd : NodeRow) (hnd : nd ∈ l) :
    l.filter (fun x => x.id == nd.id) = [nd] := by
  induction l with
  | nil => cases hnd
  | cons a t ih =>
    rcases List.pairwise_cons.mp hl with ⟨ha, ht⟩
    rcases List.mem_cons.mp hnd with rfl | hmem
    · have h1 : (nd.id == nd.id) = true := by simp
      have h2 : t.filter (fun x => x.id == nd.id) = [] := by
        rw [List.filter_eq_nil_iff]
        intro b hb
        simpa using (ha b hb).symm
      simp [List.filter_cons, h1, h2]
    · have h1 : (a.id == nd.id) = false := by
        simpa using ha nd hmem
      simp [List.filter_cons, h1, ih ht hmem]

/-- Under the foreign-key well-formedness, the nodes join preserves the
number of operation rows. -/
lemma joinNodes_length (db : DB)
    (hn : db.nodes.Pairwise fun a b => a.id ≠ b.id)
    (rs : List OperationRow)
    (hrs : ∀ r ∈ rs, ∃ nd ∈ db.nodes, nd.id = r.node_id) :
    (joinNodes db rs).length = rs.length := by
  induction rs with
  | nil => rfl
  | cons a t ih =>
    obtain ⟨nd, hnd, hid⟩ := hrs a (List.mem_cons_self a t)
    have hf : db.nodes.filter (fun x => x.id == a.node_id) = [nd] := by
      have := filter_nodes_single db.nodes hn nd hnd
      rwa [hid] at this
    have ih' := ih fun r hr => hrs r (List.mem_cons_of_mem _ hr)
    simp only [joinNodes, List.flatMap_cons, List.length_append, hf] at ih' ⊢
    simp [ih']
    omega

/-- Under the foreign-key well-formedness, the shared routine returns as
many result rows as operation rows match the WHERE fragment. -/
lemma operationsPure_length (db : DB) (w : WhereClause) (h : nodesOK db) :
    (operationsPure db w).length =
      (db.operations.filter (rowMatches w)).length := by
  rw [operationsPure, (List.perm_insertionSort _ _).length_eq]
  exact joinNodes_length db h.1 _
    fun r hr => h.2 r (List.mem_filter.mp hr).1

/-- Membership in the shared routine's result. -/
lemma operationsPure_mem (db : DB) (w : WhereClause) (o : Operation) :
    o ∈ operationsPure db w ↔ ∃ r ∈ db.operations, rowMatches w r = true ∧
      ∃ nd ∈ db.nodes, nd.id = r.node_id ∧
        o = ⟨r.id, r.uuid, nd.address, r.typ⟩ := by
  rw [operationsPure, (List.perm_insertionSort _ _).mem_iff, joinNodes,
    List.mem_flatMap]
  constructor
  · rintro ⟨r, hr, ho⟩
    rw [List.mem_map] at ho
    obtain ⟨nd, hnd, rfl⟩ := ho
    rw [List.mem_filter] at hr hnd
    exact ⟨r, hr.1, hr.2, nd, hnd.1, by simpa using hnd.2, rfl⟩
  · rintro ⟨r, hr, hrm, nd, hnd, hid, rfl⟩
    refine ⟨r, List.mem_filter.mpr ⟨hr, hrm⟩, ?_⟩
    rw [List.mem_map]
    exact ⟨nd, List.mem_filter.mpr ⟨hnd, by simpa using hid⟩, rfl⟩

/-- Case analysis on the shared routine's result by the number of matching
operation rows: none, exactly one, or at least two. -/
lemma operationsPure_shape (db : DB) (w : WhereClause) (h : nodesOK db) :
    ((db.operations.filter (rowMatches w)).length = 0 →
      operationsPure db w = []) ∧
    ((db.operations.filter (rowMatches w)).length = 1 →
      ∃ r ∈ db.operations, rowMatches w r = true ∧ ∃ nd ∈ db.nodes,
        nd.id = r.node_id ∧
          operationsPure db w = [⟨r.id, r.uuid, nd.address, r.typ⟩]) ∧
    (2 ≤ (db.operations.filter (rowMatches w)).length →
      ∃ a b t, operationsPure db w = a :: b :: t) := by
  refine ⟨?_, ?_, ?_⟩
  · intro hk
    have h0 := operationsPure_length db w h
    rw [hk] at h0
    exact List.length_eq_zero.mp h0
  · intro hk
    have h1 := operationsPure_length db w h
    rw [hk] at h1
    obtain ⟨x, hx⟩ := List.length_eq_one.mp h1
    have hmem : x ∈ operationsPure db w := by
      rw [hx]; exact List.mem_singleton_self x
    obtain ⟨r, hr, hrm, nd, hnd, hid, hxeq⟩ :=
      (operationsPure_mem db w x).mp hmem
    exact ⟨r, hr, hrm, nd, hnd, hid, by rw [hx, hxeq]⟩
  · intro hk
    have h2 := operationsPure_length db w h
    rcases hl : operationsPure db w with _ | ⟨a, _ | ⟨b, t⟩⟩
    · rw [hl] at h2; simp at h2; omega
    · rw [hl] at h2; simp at h2; omega
    · exact ⟨a, b, t, rfl⟩

/-- C3: under the schema's node foreign-key well-formedness,
`GetOperationWithID` and `GetOperationByUUID` return the single matching
operation with a nil error when exactly one row matches, fail with
`ErrNoSuchObject` (never a zero-value success) when no row matches, and
fail with the distinct "More than one operation matches" error when several
rows match. -/
theorem C3_get_single (db : DB) (n opID : Int) (uuid : String)
    (h : nodesOK db) :
    ((db.operations.filter (rowMatches (.idEq opID))).length = 0 →
      GetOperationWithID ⟨db, n⟩ opID none
        = (nullOperation, some .errNoSuchObject)) ∧
    ((db.operations.filter (rowMatches (.idEq opID))).length = 1 →
      (GetOperationWithID ⟨db, n⟩ opID none).2 = none ∧
      ∃ r ∈ db.operations, r.id = opID ∧ ∃ nd ∈ db.nodes,
        nd.id = r.node_id ∧
        (GetOperationWithID ⟨db, n⟩ opID none).1
          = ⟨r.id, r.uuid, nd.address, r.typ⟩) ∧
    (2 ≤ (db.operations.filter (rowMatches (.idEq opID))).length →
      GetOperationWithID ⟨db, n⟩ opID none
        = (nullOperation, some .moreThanOne)) ∧
    ((db.operations.filter (rowMatches (.uuidEq uuid))).length = 0 →
      GetOperationByUUID ⟨db, n⟩ uuid none
        = (nullOperation, some .errNoSuchObject)) ∧
    ((db.operations.filter (rowMatches (.uuidEq uuid))).length = 1 →
      (GetOperationByUUID ⟨db, n⟩ uuid none).2 = none ∧
      ∃ r ∈ db.operations, r.uuid = uuid ∧ ∃ nd ∈ db.nodes,
        nd.id = r.node_id ∧
        (GetOperationByUUID ⟨db, n⟩ uuid none).1
          = ⟨r.id, r.uuid, nd.address, r.typ⟩) ∧
    (2 ≤ (db.operations.filter (rowMatches (.uuidEq uuid))).length →
      GetOperationByUUID ⟨db, n⟩ uuid none
        = (nullOperation, some .moreThanOne)) ∧
    GoErr.moreThanOne ≠ GoErr.errNoSuchObject := by
  obtain ⟨hA0, hA1, hA2⟩ := operationsPure_shape db (.idEq opID) h
  obtain ⟨hB0, hB1, hB2⟩ := operationsPure_shape db (.uuidEq uuid) h
  refine ⟨?_, ?_, ?_, ?_, ?_, ?_, by decide⟩
  · intro hk
    simp [GetOperationWithID, operations, hA0 hk]
  · intro hk
    obtain ⟨r, hr, hrm, nd, hnd, hid, heq⟩ := hA1 hk
    have hres : GetOperationWithID ⟨db, n⟩ opID none
        = (⟨r.id, r.uuid, nd.address, r.typ⟩, none) := by
      simp [GetOperationWithID, operations, heq]
    rw [hres]
    exact ⟨rfl, r, hr, by simpa [rowMatches] using hrm, nd, hnd, hid, rfl⟩
  · intro hk
    obtain ⟨a, b, t, heq⟩ := hA2 hk
    simp [GetOperationWithID, operations, heq]
  · intro hk
    simp [GetOperationByUUID, operations, hB0 hk]
  · intro hk
    obtain ⟨r, hr, hrm, nd, hnd, hid, heq⟩ := hB1 hk
    have hres : GetOperationByUUID ⟨db, n⟩ uuid none
        = (⟨r.id, r.uuid, nd.address, r.typ⟩, none) := by
      simp [GetOperationByUUID, operations, heq]
    rw [hres]
    exact ⟨rfl, r, hr, by simpa [rowMatches] using hrm, nd, hnd, hid, rfl⟩
  · intro hk
    obtain ⟨a, b, t, heq⟩ := hB2 hk
    simp [GetOperationByUUID, operations, heq]

/-- C3 witness: fetching the unique id-1 operation succeeds with a nil
error, and fetching an absent uuid fails with `ErrNoSuchObject`. -/
theorem C3_witness :
    (GetOperationWithID ⟨witDB, 2⟩ 1 none).2 = none ∧
    GetOperationByUUID ⟨witDB, 2⟩ "zzz" none
      = (nullOperation, some .errNoSuchObject) := by
  have h := C3_get_single witDB 2 1 "zzz" (by decide)
  exact ⟨(h.2.1 (by decide)).1, h.2.2.2.1 (by decide)⟩

/-- A successful `CreateOperation` call upserts exactly the row
`(uuid, local node, typ, resolved project)` keyed on the uuid, returns its
surrogate key, and leaves the reference tables untouched. -/
lemma CreateOperation_ok (tx : ClusterTx) (project uuid : String) (typ : Int)
    (h : (CreateOperation tx project uuid typ).2.2 = none) :
    (CreateOperation tx project uuid typ).1.operations =
      (tx.db.operations.filter fun r => r.uuid ≠ uuid) ++
        [⟨(CreateOperation tx project uuid typ).2.1, uuid, tx.nodeID, typ,
          resolvedProjectID tx.db project⟩] ∧
    (CreateOperation tx project uuid typ).1.projects = tx.db.projects := by
  by_cases hp : project = ""
  · subst hp
    simp [CreateOperation, upsertOperationsRow, resolvedProjectID]
  · rcases hg : GetProjectID tx.db project with e | pid
    · exfalso
      simp [CreateOperation, hp, hg] at h
    · simp [CreateOperation, hp, hg, upsertOperationsRow, resolvedProjectID]

/-- C4: `CreateOperation` with an empty project stores a NULL `project_id`;
with a non-empty project it resolves the name and propagates the lookup's
failure wrapped with "Fetch project ID", leaving the store unchanged; on
success it upserts exactly the tuple `(uuid, local node, typ, project id)`
and returns the surrogate key of the affected row — the stored `node_id` is
always the transaction's local node. -/
theorem C4_CreateOperation (db : DB) (n : Int) (project uuid : String)
    (typ : Int) :
    (project = "" →
      (CreateOperation ⟨db, n⟩ project uuid typ).2.2 = none ∧
      (CreateOperation ⟨db, n⟩ project uuid typ).1.operations =
        (db.operations.filter fun r => r.uuid ≠ uuid) ++
          [⟨(CreateOperation ⟨db, n⟩ project uuid typ).2.1, uuid, n, typ,
            none⟩]) ∧
    (project ≠ "" → ∀ e, GetProjectID db project = .error e →
      CreateOperation ⟨db, n⟩ project uuid typ
        = (db, -1, some (.wrap "Fetch project ID" e))) ∧
    (project ≠ "" → ∀ pid, GetProjectID db project = .ok pid →
      (CreateOperation ⟨db, n⟩ project uuid typ).2.2 = none ∧
      (CreateOperation ⟨db, n⟩ project uuid typ).1.operations =
        (db.operations.filter fun r => r.uuid ≠ uuid) ++
          [⟨(CreateOperation ⟨db, n⟩ project uuid typ).2.1, uuid, n, typ,
            some pid⟩]) := by
  refine ⟨?_, ?_, ?_⟩
  · intro hp
    subst hp
    have h0 : (CreateOperation ⟨db, n⟩ "" uuid typ).2.2 = none := by
      simp [CreateOperation]
    have h1 := CreateOperation_ok ⟨db, n⟩ "" uuid typ h0
    have h2 : resolvedProjectID db "" = none := by
      simp [resolvedProjectID]
    rw [h2] at h1
    exact ⟨h0, h1.1⟩
  · intro hp e he
    simp [CreateOperation, hp, he]
  · intro hp pid hg
    have h0 : (CreateOperation ⟨db, n⟩ project uuid typ).2.2 = none := by
      simp [CreateOperation, hp, hg]
    have h1 := CreateOperation_ok ⟨db, n⟩ project uuid typ h0
    have h2 : resolvedProjectID db project = some pid := by
      simp [resolvedProjectID, hp, hg]
    rw [h2] at h1
    exact ⟨h0, h1.1⟩

/-- C4 witness: over a store with project "p" (id 3), a global create
succeeds; creating with an unknown project "q" fails with the wrapped
NotFound and leaves the store unchanged; creating with "p" stores
`project_id = 3`, `node_id = 1` and returns key 0. -/
theorem C4_witness :
    (CreateOperation ⟨⟨[], [], [⟨3, "p"⟩], 0⟩, 1⟩ "" "u" 7).2.2 = none ∧
    CreateOperation ⟨⟨[], [], [⟨3, "p"⟩], 0⟩, 1⟩ "q" "u" 7
      = (⟨[], [], [⟨3, "p"⟩], 0⟩, -1,
          some (.wrap "Fetch project ID" .errNoSuchObject)) ∧
    (CreateOperation ⟨⟨[], [], [⟨3, "p"⟩], 0⟩, 1⟩ "p" "u" 7).1.operations
      = [⟨0, "u", 1, 7, some 3⟩] := by
  have h1 := (C4_CreateOperation ⟨[], [], [⟨3, "p"⟩], 0⟩ 1 "" "u" 7).1 rfl
  have h2 := (C4_CreateOperation ⟨[], [], [⟨3, "p"⟩], 0⟩ 1 "q" "u" 7).2.1
    (by decide) GoErr.errNoSuchObject (by rfl)
  have h3 := (C4_CreateOperation ⟨[], [], [⟨3, "p"⟩], 0⟩ 1 "p" "u" 7).2.2
    (by decide) 3 (by rfl)
  refine ⟨h1.1, h2, ?_⟩
  rw [h3.2]
  decide

/-- The upsert preserves uuid uniqueness: it removes every row with the
incoming uuid before appending the new one. -/
lemma uuidUnique_upsert (d : DB) (u : String) (n t : Int) (po : Option Int)
    (hu : uuidUnique d) : uuidUnique (upsertOperationsRow d u n t po).1 := by
  have hops : (upsertOperationsRow d u n t po).1.operations =
      (d.operations.filter fun r => r.uuid ≠ u) ++ [⟨d.nextID, u, n, t, po⟩] :=
    rfl
  rw [uuidUnique, hops, List.pairwise_append]
  refine ⟨List.Pairwise.sublist (List.filter_sublist _) hu, by simp, ?_⟩
  intro a ha b hb
  rw [List.mem_filter] at ha
  rw [List.mem_singleton] at hb
  subst hb
  simpa using ha.2

/-- `CreateOperation` either leaves the store unchanged (failed project
resolution) or performs the upsert. -/
lemma CreateOperation_db_cases (d : DB) (n : Int) (p u : String) (t : Int) :
    (CreateOperation ⟨d, n⟩ p u t).1 = d ∨
    ∃ po : Option Int, (CreateOperation ⟨d, n⟩ p u t).1 =
      (upsertOperationsRow d u n t po).1 := by
  by_cases hp : p = ""
  · subst hp
    exact Or.inr ⟨none, by simp [CreateOperation]⟩
  · rcases hg : GetProjectID d p with e | pid
    · exact Or.inl (by simp [CreateOperation, hp, hg])
    · exact Or.inr ⟨some pid, by simp [CreateOperation, hp, hg]⟩

/-- Every single mutation through the write surface preserves uuid
uniqueness. -/
lemma Step_uuidUnique {d d' : DB} (hs : Step d d') (hu : uuidUnique d) :
    uuidUnique d' := by
  cases hs with
  | create n p u t =>
    rcases CreateOperation_db_cases d n p u t with h | ⟨po, h⟩
    · rwa [h]
    · rw [h]
      exact uuidUnique_upsert d u n t po hu
  | remove n u =>
    have hops : (RemoveOperation ⟨d, n⟩ u).1.operations =
        d.operations.filter fun r => r.uuid ≠ u := by
      simp only [RemoveOperation]
      split_ifs <;> rfl
    rw [uuidUnique, hops]
    exact List.Pairwise.sublist (List.filter_sublist _) hu
  | removeNode n nodeID =>
    exact List.Pairwise.sublist (List.filter_sublist _) hu
  | refTables nodes projects => exact hu

/-- Every store reachable through the write surface keeps at most one
operations row per uuid. -/
lemma reachable_uuidUnique (d : DB) (h : Reachable d) : uuidUnique d := by
  induction h with
  | init nodes projects k => exact List.Pairwise.nil
  | step db db' hr hs ih => exact Step_uuidUnique hs ih

/-- C5: after two successful `CreateOperation` calls with the same uuid,
exactly one row with that uuid exists, carrying the second call's type and
resolved project (and the local node); and every store reachable through
this module's write surface has at most one row per uuid. -/
theorem C5_upsert_unique (db : DB) (n : Int) (p₁ p₂ u : String)
    (t₁ t₂ : Int) :
    ((CreateOperation ⟨db, n⟩ p₁ u t₁).2.2 = none →
     (CreateOperation ⟨(CreateOperation ⟨db, n⟩ p₁ u t₁).1, n⟩ p₂ u t₂).2.2
        = none →
     (CreateOperation ⟨(CreateOperation ⟨db, n⟩ p₁ u t₁).1, n⟩ p₂ u
        t₂).1.operations.filter (fun r => r.uuid == u) =
        [⟨(CreateOperation ⟨(CreateOperation ⟨db, n⟩ p₁ u t₁).1, n⟩ p₂ u
            t₂).2.1, u, n, t₂, resolvedProjectID db p₂⟩]) ∧
    ∀ d, Reachable d → uuidUnique d := by
  constructor
  · intro h1 h2
    obtain ⟨hops, hproj⟩ :=
      CreateOperation_ok ⟨(CreateOperation ⟨db, n⟩ p₁ u t₁).1, n⟩ p₂ u t₂ h2
    rw [hops, List.filter_append]
    have hl : (((CreateOperation ⟨db, n⟩ p₁ u t₁).1.operations.filter
        fun r => r.uuid ≠ u).filter fun r => r.uuid == u) = [] := by
      rw [List.filter_eq_nil_iff]
      intro a ha
      rw [List.mem_filter] at ha
      simpa using (by simpa using ha.2 : a.uuid ≠ u)
    have hres : resolvedProjectID (CreateOperation ⟨db, n⟩ p₁ u t₁).1 p₂
        = resolvedProjectID db p₂ := by
      have hpr := (CreateOperation_ok ⟨db, n⟩ p₁ u t₁ h1).2
      simp [resolvedProjectID, GetProjectID, hpr]
    rw [hl, hres]
    simp
  · exact fun d h => reachable_uuidUnique d h

/-- C5 witness: creating uuid "abc" globally (type 7) and then again under
project "p" (type 9) leaves exactly one "abc" row reflecting the second
call, and the empty store satisfies the uniqueness invariant. -/
theorem C5_witness :
    (CreateOperation ⟨(CreateOperation ⟨⟨[], [], [⟨3, "p"⟩], 0⟩, 1⟩ ""
        "abc" 7).1, 1⟩ "p" "abc" 9).1.operations.filter
      (fun r => r.uuid == "abc") = [⟨1, "abc", 1, 9, some 3⟩] ∧
    uuidUnique ⟨[], [], [], 0⟩ := by
  have h := C5_upsert_unique ⟨[], [], [⟨3, "p"⟩], 0⟩ 1 "" "p" "abc" 7 9
  refine ⟨?_, h.2 ⟨[], [], [], 0⟩ (Reachable.init [] [] 0)⟩
  have h1 := h.1 (by decide) (by decide)
  rw [h1]
  decide

end LxdDB
